import Mathlib

/-!
Verification of the company-details serialization core of the JKWI-WEB
repository (file `company details/company_manager.py`).

The Python code is shallowly embedded: each writer (`write_json`,
`write_ini`, `write_csv`, `write_text`) and reader (`read_json`,
`read_ini`) of `CompanyDetailsManager` becomes a pure Lean function on a
`Record` structure mirroring `self.company_data`.  File input and output
is factored out: encoders produce the text (or the structured value) that
the Python code writes, decoders consume the file content (as a parsed
JSON value, respectively as the list of text lines).  Python `float`
values are modelled exactly as decimal numbers `mant * 10 ^ expo`
(IEEE-754 binary rounding is not modelled; none of the verified
properties depends on it).  Text processing is modelled on `List Char`
so that every definition evaluates inside the kernel.
-/

namespace JKWI

/-- Whitespace predicate used when stripping input, matching the ASCII
whitespace CPython strips around `float` input. -/
def isWs (c : Char) : Bool :=
  c = ' ' ∨ c = '\t' ∨ c = '\n' ∨ c = '\r' ∨ c = '\x0b' ∨ c = '\x0c'

/-- Strip leading and trailing whitespace from a character list. -/
def trimChars (cs : List Char) : List Char :=
  ((cs.dropWhile isWs).reverse.dropWhile isWs).reverse

/-- ASCII lower-casing of one character (CPython `str.lower` restricted
to the ASCII range this program deals in). -/
def asciiLower (c : Char) : Char :=
  if 65 ≤ c.toNat ∧ c.toNat ≤ 90 then Char.ofNat (c.toNat + 32) else c

/-- ASCII lower-casing of a string. -/
def lowerStr (s : String) : String :=
  String.mk (s.data.map asciiLower)

/-- An exact decimal value `mant * 10 ^ expo`.  Values built through
`mkDec` are normalized (the mantissa of a nonzero value is not divisible
by ten, zero is `⟨0, 0⟩`), so structural equality is value equality. -/
structure Dec where
  mant : ℤ
  expo : ℤ
  deriving DecidableEq

/-- Remove factors of ten from the mantissa, moving them to the
exponent (fuel-bounded; the fuel dominates the digit count of every
mantissa this development builds). -/
def normDec : Nat → ℤ → ℤ → ℤ × ℤ
  | 0, m, e => (m, e)
  | fuel + 1, m, e =>
      if m ≠ 0 ∧ m % 10 = 0 then normDec fuel (m / 10) (e + 1) else (m, e)

/-- Build a normalized decimal value. -/
def mkDec (m e : ℤ) : Dec :=
  if m = 0 then ⟨0, 0⟩
  else
    let p := normDec 500 m e
    ⟨p.1, p.2⟩

/-- Model of a CPython `float` value as far as this program observes it:
a finite decimal value, the two infinities, or NaN. -/
inductive PyFloat where
  | finite (d : Dec)
  | inf
  | ninf
  | nan
  deriving DecidableEq

/-- Numeric value of a list of decimal digit characters. -/
def digitsToNat (ds : List Char) : Nat :=
  ds.foldl (fun a c => 10 * a + (c.toNat - 48)) 0

/-- Underscore placement check of CPython numeric literals: every
underscore must sit between two digits (`float "1_0"` is accepted,
`float "1_"` and `float "1_.0"` are rejected). -/
def underscoreOk : List Char → Bool
  | [] => true
  | a :: '_' :: rest =>
      a.isDigit && (match rest with | b :: _ => b.isDigit | [] => false)
        && underscoreOk rest
  | _ :: rest => underscoreOk rest

/-- Underscore check including the rejection of a leading underscore. -/
def underscoreOkAll (cs : List Char) : Bool :=
  match cs with
  | '_' :: _ => false
  | _ => underscoreOk cs

/-- Split a numeric token at the first `e`/`E`, returning the mantissa
characters and, when an exponent marker is present, the exponent
characters. -/
def splitExponent : List Char → List Char × Option (List Char)
  | [] => ([], none)
  | c :: rest =>
      if c = 'e' ∨ c = 'E' then ([], some rest)
      else
        let p := splitExponent rest
        (c :: p.1, p.2)

/-- Parse the mantissa `digits [ . digits ]` of a CPython float literal
(at least one digit overall), as the pair of an integer value and the
count of fractional digits. -/
def parseMantissa (cs : List Char) : Option (ℤ × ℕ) :=
  let ip := cs.takeWhile Char.isDigit
  let rest := cs.dropWhile Char.isDigit
  match rest with
  | [] => if ip.isEmpty then none else some ((digitsToNat ip : ℤ), 0)
  | '.' :: fp =>
      if fp.all Char.isDigit && !(ip.isEmpty && fp.isEmpty) then
        some ((digitsToNat (ip ++ fp) : ℤ), fp.length)
      else none
  | _ => none

/-- Parse the exponent `[ sign ] digits` of a CPython float literal. -/
def parseExponent (cs : List Char) : Option ℤ :=
  let p : Bool × List Char :=
    match cs with
    | '+' :: r => (false, r)
    | '-' :: r => (true, r)
    | r => (false, r)
  if p.2.isEmpty || !p.2.all Char.isDigit then none
  else some (if p.1 then -(digitsToNat p.2 : ℤ) else (digitsToNat p.2 : ℤ))

/-- Model of CPython `float s`: strip whitespace, optional sign, then
either `inf`/`infinity`/`nan` (case-insensitive) or a decimal literal
with optional fraction and exponent, underscores allowed between
digits.  Returns `none` exactly when CPython raises `ValueError`.
(Overflow of huge exponents to `inf` is not modelled; values stay exact
decimals.) -/
def pyFloat (s : String) : Option PyFloat :=
  let cs0 := trimChars s.data
  let p : Bool × List Char :=
    match cs0 with
    | '+' :: r => (false, r)
    | '-' :: r => (true, r)
    | r => (false, r)
  let neg := p.1
  let cs := p.2
  let low := cs.map asciiLower
  if low = ['i', 'n', 'f'] ∨ low = ['i', 'n', 'f', 'i', 'n', 'i', 't', 'y'] then
    some (if neg then PyFloat.ninf else PyFloat.inf)
  else if low = ['n', 'a', 'n'] then
    some PyFloat.nan
  else if !underscoreOkAll cs then none
  else
    let cs1 := cs.filter (fun c => c ≠ '_')
    let me := splitExponent cs1
    match parseMantissa me.1 with
    | none => none
    | some (m0, fracLen) =>
        let m : ℤ := if neg then -m0 else m0
        match me.2 with
        | none => some (PyFloat.finite (mkDec m (-(fracLen : ℤ))))
        | some ec =>
            match parseExponent ec with
            | none => none
            | some z => some (PyFloat.finite (mkDec m (z - (fracLen : ℤ))))

/-- Model of CPython `str x` on a float as this program uses it: a
finite value prints sign, integer part, a dot and the fractional digits
(`15.0`, `12.5`, `-5.0`); the scientific notation CPython switches to
for very large or very small magnitudes is not modelled (no verified
property exercises it). -/
def pyFloatRepr : PyFloat → String
  | PyFloat.inf => "inf"
  | PyFloat.ninf => "-inf"
  | PyFloat.nan => "nan"
  | PyFloat.finite d =>
      let sign := if d.mant < 0 then "-" else ""
      let a := d.mant.natAbs
      if 0 ≤ d.expo then
        sign ++ toString (a * 10 ^ d.expo.toNat) ++ ".0"
      else
        let k := (-d.expo).toNat
        let ds := (toString a).data
        if ds.length ≤ k then
          sign ++ "0." ++ String.mk (List.replicate (k - ds.length) '0' ++ ds)
        else
          sign ++ String.mk (ds.take (ds.length - k)) ++ "." ++
            String.mk (ds.drop (ds.length - k))

/-- The canonical in-memory company record, one field per key of
`self.company_data` in `CompanyDetailsManager.__init__`. -/
structure Record where
  name : String
  registration_number : String
  type : String
  street : String
  suburb : String
  province : String
  postal_code : String
  country : String
  email : String
  phone : String
  whatsapp : String
  website : String
  account_name : String
  bank : String
  branch_code : String
  account_number : String
  account_type : String
  swift_code : String
  vat_number : String
  tax_reference : String
  default_tax_rate : PyFloat
  industry : String
  established_year : String
  description : String
  deriving DecidableEq

/-- The default `company_data` dictionary from
`CompanyDetailsManager.__init__`. -/
def defaultCompanyData : Record where
  name := "JK WINNERS INVESTMENT(PTY)Ltd"
  registration_number := "2013/047375/07"
  type := "Private Company"
  street := "22 Sloane Street"
  suburb := "Bryanston"
  province := "GAUTENG"
  postal_code := "1619"
  country := "South Africa"
  email := "info@jkwinnersinvestment.co.za"
  phone := "010 085 3553"
  whatsapp := "0839887569"
  website := ""
  account_name := "JK Winners Investment (Pty)Ltd"
  bank := "FNB"
  branch_code := "250655"
  account_number := "63151527133"
  account_type := "Business"
  swift_code := ""
  vat_number := ""
  tax_reference := ""
  default_tax_rate := PyFloat.finite (mkDec 15 0)
  industry := "Investment"
  established_year := "2013"
  description := "Investment Company"

/-- The derived full address, the f-string
`"{street}, {suburb}, {province} {postal_code}"` computed inside
`write_json` and `write_ini`. -/
def fullAddress (r : Record) : String :=
  r.street ++ ", " ++ r.suburb ++ ", " ++ r.province ++ " " ++ r.postal_code

example : pyFloat "12.5" = some (PyFloat.finite (mkDec 125 (-1))) := by decide
example : pyFloat "abc" = none := by decide
example : pyFloat "-5" = some (PyFloat.finite (mkDec (-5) 0)) := by decide
example : pyFloat "" = none := by decide
example : pyFloat " 1e2 " = some (PyFloat.finite (mkDec 1 2)) := by decide
example : pyFloat "INF" = some PyFloat.inf := by decide
example : pyFloat "1_0.2_5" = some (PyFloat.finite (mkDec 1025 (-2))) := by decide
example : pyFloat "1_." = none := by decide
example : pyFloatRepr (PyFloat.finite (mkDec 15 0)) = "15.0" := by decide
example : pyFloatRepr (PyFloat.finite (mkDec 125 (-1))) = "12.5" := by decide
example : pyFloatRepr (PyFloat.finite (mkDec (-5) 0)) = "-5.0" := by decide
example : pyFloatRepr (PyFloat.finite (mkDec 5 (-2))) = "0.05" := by decide
example : fullAddress defaultCompanyData = "22 Sloane Street, Bryanston, GAUTENG 1619" := by decide

/-- JSON values, the shape of what `json.load` returns and `json.dump`
receives.  The text layer (`json.dump` / `json.load` of the standard
library) is modelled as the identity on these values: the embedding of
`read_json` takes the parsed document, with `none` standing for a file
whose content is not syntactically valid JSON. -/
inductive Json where
  | null
  | bool (b : Bool)
  | num (x : PyFloat)
  | str (s : String)
  | arr (elems : List Json)
  | obj (fields : List (String × Json))

/-- Key lookup on a JSON value: the value under `k` if the value is an
object holding `k`, otherwise `none` (Python `data[k]` raises `KeyError`
or `TypeError` in exactly the `none` cases, and the `except` clause of
`read_json` turns either into the error return). -/
def Json.getKey (j : Json) (k : String) : Option Json :=
  match j with
  | .obj fields => fields.lookup k
  | _ => none

/-- The nested `"company"` object built by
`CompanyDetailsManager.write_json` (lines 83-121), with `full_address`
recomputed from the four address fields. -/
def companyJson (r : Record) : Json :=
  .obj [
    ("name", .str r.name),
    ("registration_number", .str r.registration_number),
    ("type", .str r.type),
    ("address", .obj [
      ("street", .str r.street),
      ("suburb", .str r.suburb),
      ("province", .str r.province),
      ("postal_code", .str r.postal_code),
      ("country", .str r.country),
      ("full_address", .str (fullAddress r))]),
    ("contact", .obj [
      ("email", .str r.email),
      ("phone", .str r.phone),
      ("whatsapp", .str r.whatsapp),
      ("website", .str r.website)]),
    ("banking", .obj [
      ("account_name", .str r.account_name),
      ("bank", .str r.bank),
      ("branch_code", .str r.branch_code),
      ("account_number", .str r.account_number),
      ("account_type", .str r.account_type),
      ("swift_code", .str r.swift_code)]),
    ("tax", .obj [
      ("vat_number", .str r.vat_number),
      ("tax_reference", .str r.tax_reference),
      ("default_tax_rate", .num r.default_tax_rate)]),
    ("business", .obj [
      ("industry", .str r.industry),
      ("established_year", .str r.established_year),
      ("description", .str r.description)])]

/-- The whole document `write_json` dumps:
`structured_data = { "company": { ... } }`. -/
def write_json (r : Record) : Json :=
  .obj [("company", companyJson r)]

/-- `CompanyDetailsManager.read_json` at the value level: given the
parsed document (`none` when the file content is not valid JSON), return
`data["company"]`; every failure (parse error, missing key, non-object
document) lands in the `except` clause and yields `None`. -/
def read_json (doc : Option Json) : Option Json :=
  doc.bind (fun j => j.getKey "company")

/-- Modelled from the spec: the flat-record reading of a decoded
`"company"` object that §4.2 of the spec ascribes to decode
("reconstructs the flat field set from the nested groups").  It rebuilds
a `Record` from the nested group objects, ignoring the derived
`full_address`.  The repository itself has no such flattening code;
this definition exists to state what relation the round trip does
satisfy. -/
def companyRecover (j : Json) : Option Record :=
  match j with
  | .obj [
      ("name", .str nm),
      ("registration_number", .str rn),
      ("type", .str ty),
      ("address", .obj [
        ("street", .str st),
        ("suburb", .str su),
        ("province", .str pv),
        ("postal_code", .str pc),
        ("country", .str co),
        ("full_address", .str _)]),
      ("contact", .obj [
        ("email", .str em),
        ("phone", .str ph),
        ("whatsapp", .str wa),
        ("website", .str ws)]),
      ("banking", .obj [
        ("account_name", .str an),
        ("bank", .str bk),
        ("branch_code", .str bc),
        ("account_number", .str ac),
        ("account_type", .str aty),
        ("swift_code", .str sw)]),
      ("tax", .obj [
        ("vat_number", .str vn),
        ("tax_reference", .str tr),
        ("default_tax_rate", .num dt)]),
      ("business", .obj [
        ("industry", .str ind),
        ("established_year", .str ey),
        ("description", .str ds)])] =>
      some ⟨nm, rn, ty, st, su, pv, pc, co, em, ph, wa, ws, an, bk, bc, ac, aty, sw,
        vn, tr, dt, ind, ey, ds⟩
  | _ => none

example : read_json (some (write_json defaultCompanyData)) = some (companyJson defaultCompanyData) := rfl
example : companyRecover (companyJson defaultCompanyData) = some defaultCompanyData := rfl
example : (read_json (some (write_json defaultCompanyData))).bind (fun j => j.getKey "street") = none := rfl
example : read_json none = none := rfl
example : read_json (some (Json.obj [("x", Json.null)])) = none := rfl
example : read_json (some (Json.arr [])) = none := rfl

/-- One physical construct of the INI file `configparser.write`
produces: a section header line, a key-value line, or the blank line
closing a section. -/
inductive IniLine where
  | secHeader (sectionName : String)
  | kv (key value : String)
  | blank
  deriving DecidableEq

/-- Replace every newline of a value by newline-plus-tab, the
continuation encoding `configparser.write` uses for multi-line values. -/
def escContinuation : List Char → List Char
  | [] => []
  | '\n' :: rest => '\n' :: '\t' :: escContinuation rest
  | c :: rest => c :: escContinuation rest

/-- Render one INI construct the way `configparser.write` prints it
(`key = value` with the default ` = ` delimiter). -/
def renderIniLine : IniLine → String
  | .secHeader n => "[" ++ n ++ "]"
  | .kv k v => k ++ " = " ++ String.mk (escContinuation v.data)
  | .blank => ""

/-- The sections and key-value pairs `CompanyDetailsManager.write_ini`
(lines 142-194) assigns, in assignment order: sections `company`,
`address`, `contact`, `banking`, `tax`, `business`, each followed by the
blank line `configparser.write` emits, with `full_address` recomputed
and `default_tax_rate` stringified. -/
def write_ini_lines (r : Record) : List IniLine :=
  [.secHeader "company",
   .kv "name" r.name,
   .kv "registration_number" r.registration_number,
   .kv "type" r.type,
   .blank,
   .secHeader "address",
   .kv "street" r.street,
   .kv "suburb" r.suburb,
   .kv "province" r.province,
   .kv "postal_code" r.postal_code,
   .kv "country" r.country,
   .kv "full_address" (fullAddress r),
   .blank,
   .secHeader "contact",
   .kv "email" r.email,
   .kv "phone" r.phone,
   .kv "whatsapp" r.whatsapp,
   .kv "website" r.website,
   .blank,
   .secHeader "banking",
   .kv "account_name" r.account_name,
   .kv "bank" r.bank,
   .kv "branch_code" r.branch_code,
   .kv "account_number" r.account_number,
   .kv "account_type" r.account_type,
   .kv "swift_code" r.swift_code,
   .blank,
   .secHeader "tax",
   .kv "vat_number" r.vat_number,
   .kv "tax_reference" r.tax_reference,
   .kv "default_tax_rate" (pyFloatRepr r.default_tax_rate),
   .blank,
   .secHeader "business",
   .kv "industry" r.industry,
   .kv "established_year" r.established_year,
   .kv "description" r.description,
   .blank]

/-- The full text `configparser.write` emits: every construct on its
own line. -/
def write_ini_text (r : Record) : String :=
  String.join ((write_ini_lines r).map (fun l => renderIniLine l ++ "\n"))

/-- The stray-percent validation `BasicInterpolation.before_set` runs
when a value is assigned to a `ConfigParser` section: after discarding
`%%` pairs and `%(` openers, no `%` may remain. -/
def interpSetOk : List Char → Bool
  | [] => true
  | '%' :: '%' :: rest => interpSetOk rest
  | '%' :: '(' :: rest => interpSetOk rest
  | '%' :: _ => false
  | _ :: rest => interpSetOk rest

/-- `CompanyDetailsManager.write_ini` as observed at the file: the
section assignments validate every value through
`BasicInterpolation.before_set` (a stray `%` raises `ValueError`, so no
file is produced); otherwise the rendered text is written. -/
def write_ini (r : Record) : Option String :=
  if (write_ini_lines r).all
      (fun l => match l with | .kv _ v => interpSetOk v.data | _ => true) then
    some (write_ini_text r)
  else none

/-- Name of a section header construct, when the construct is one. -/
def iniHeaderName : IniLine → Option String
  | .secHeader n => some n
  | _ => none

/-- Key of a key-value construct, when the construct is one. -/
def iniKvKey : IniLine → Option String
  | .kv k _ => some k
  | _ => none

/-- The 23 fixed CSV column names of `CompanyDetailsManager.write_csv`
(lines 203-209), in source order. -/
def csvHeader : List String :=
  ["company_name", "registration_number", "company_type", "street_address",
   "suburb", "province", "postal_code", "country", "email", "phone",
   "whatsapp", "website", "account_name", "bank", "branch_code",
   "account_number", "account_type", "vat_number", "tax_reference",
   "default_tax_rate", "industry", "established_year", "description"]

/-- The single data row `write_csv` passes to `DictWriter.writerow`
(lines 214-238), in column order; the float is stringified by the `csv`
module via `str`. -/
def csvRow (r : Record) : List String :=
  [r.name, r.registration_number, r.type, r.street,
   r.suburb, r.province, r.postal_code, r.country, r.email, r.phone,
   r.whatsapp, r.website, r.account_name, r.bank, r.branch_code,
   r.account_number, r.account_type, r.vat_number, r.tax_reference,
   pyFloatRepr r.default_tax_rate, r.industry, r.established_year, r.description]

/-- The rows `write_csv` writes: the header row then the one data row. -/
def csvRows (r : Record) : List (List String) :=
  [csvHeader, csvRow r]

/-- Minimal quoting of one CSV field as the `csv` module writes it:
a field holding a comma, quote, or line break is wrapped in quotes with
inner quotes doubled. -/
def quoteCsvField (s : String) : String :=
  if s.data.any (fun c => c = ',' ∨ c = '"' ∨ c = '\n' ∨ c = '\r') then
    "\"" ++ String.mk (s.data.flatMap (fun c => if c = '"' then ['"', '"'] else [c])) ++ "\""
  else s

/-- Render one CSV row with the default `\r\n` line terminator of the
`csv` module. -/
def renderCsvRow (row : List String) : String :=
  String.intercalate "," (row.map quoteCsvField) ++ "\r\n"

/-- The full text `write_csv` produces. -/
def csvText (r : Record) : String :=
  renderCsvRow csvHeader ++ renderCsvRow (csvRow r)

/-- Python `value or placeholder` on strings: the placeholder stands in
exactly when the value is the empty (falsy) string. -/
def orFilled (s : String) : String :=
  if s = "" then "[To be filled]" else s

/-- The part of the `write_text` template before the VAT label
(lines 247-275). -/
def textBeforeVat (r : Record) : String :=
  "Company Name\n    " ++ r.name ++
  "\n\nRegistration Number\n    " ++ r.registration_number ++
  "\n\nCompany Type\n    " ++ r.type ++
  "\n\nAddress\n    " ++ r.street ++
  "\n    " ++ r.suburb ++
  "\n    " ++ r.province ++
  "\n    " ++ r.postal_code ++
  "\n    " ++ r.country ++
  "\n\nContact Details\n    Email: " ++ r.email ++
  "\n    Phone: " ++ r.phone ++
  "\n    WhatsApp: " ++ r.whatsapp ++
  "\n\nBanking Details\n    Account Name: " ++ r.account_name ++
  "\n    Bank: " ++ r.bank ++
  "\n    Branch Code: " ++ r.branch_code ++
  "\n    Account Number: " ++ r.account_number ++
  "\n    Account Type: " ++ r.account_type ++
  "\n\nTax Information\n    "

/-- The part of the `write_text` template after the tax-reference value
(lines 278-283). -/
def textAfterTax (r : Record) : String :=
  "\n    Default Tax Rate: " ++ pyFloatRepr r.default_tax_rate ++ "%" ++
  "\n\nBusiness Information\n    Industry: " ++ r.industry ++
  "\n    Established: " ++ r.established_year ++
  "\n    Description: " ++ r.description

/-- `CompanyDetailsManager.write_text` (lines 240-283): the fixed
template with the two `or` placeholders on `vat_number` and
`tax_reference`. -/
def write_text (r : Record) : String :=
  textBeforeVat r ++
  ("VAT Number: " ++ orFilled r.vat_number) ++
  ("\n    Tax Reference: " ++ orFilled r.tax_reference) ++
  textAfterTax r

/-- The tax-rate step of `CompanyDetailsManager.edit_tax`
(lines 387-392): an empty input keeps the current value silently;
otherwise `float(tax_rate)` is tried, a `ValueError` prints
`Invalid tax rate, keeping current value` and keeps the prior value
(the returned flag is `true` exactly when that message is printed). -/
def edit_tax_rate (r : Record) (s : String) : Record × Bool :=
  if s = "" then (r, false)
  else
    match pyFloat s with
    | some v => ({ r with default_tax_rate := v }, false)
    | none => (r, true)

/-- The formats `--read` accepts in `main`. -/
inductive ReadFormat where
  | json
  | ini
  | csv
  | txt
  deriving DecidableEq

/-- What the `--read` branch of `main` does, as observed by the user:
a JSON document is printed, a flat INI mapping is displayed, nothing
happens, or an `UnsupportedOperation` failure is reported.  The last
constructor exists to state the specified behavior; the implementation
never produces it. -/
inductive ReadOutcome where
  | printedJson (j : Json)
  | printedData (m : List (String × String))
  | silent
  | unsupportedOp

/-- Split text into physical lines at newlines (the line iteration of
`configparser.read`; the stripped trailing newline never matters). -/
def splitNl : List Char → List (List Char)
  | [] => [[]]
  | '\n' :: rest => [] :: splitNl rest
  | c :: rest =>
      match splitNl rest with
      | l :: ls => (c :: l) :: ls
      | [] => [[c]]

/-- Text split into lines, as strings. -/
def splitLines (t : String) : List String :=
  (splitNl t.data).map String.mk

/-- Split a stripped option line at its first `=` or `:` delimiter
(the `OPTCRE` regex of `configparser`); `none` when no delimiter occurs,
which is a `ParsingError`. -/
def splitKVChars : List Char → Option (List Char × List Char)
  | [] => none
  | c :: rest =>
      if c = '=' ∨ c = ':' then some ([], rest)
      else
        match splitKVChars rest with
        | some (k, v) => some (c :: k, v)
        | none => none

/-- Parse a stripped line as a section header (the `SECTCRE` regex
`\[([^]]+)\]`, matched as a prefix, so trailing junk after `]` is
tolerated just as in `configparser`). -/
def parseSecHeader (stripped : List Char) : Option String :=
  match stripped with
  | '[' :: rest =>
      let nm := rest.takeWhile (fun c => c ≠ ']')
      match rest.dropWhile (fun c => c ≠ ']') with
      | ']' :: _ => if nm.isEmpty then none else some (String.mk nm)
      | _ => none
  | _ => none

/-- Append a continuation fragment to the value of key `k`. -/
def appendToVal (kvs : List (String × String)) (k add : String) : List (String × String) :=
  match kvs with
  | [] => []
  | (a, b) :: rest =>
      if a = k then (a, b ++ add) :: rest else (a, b) :: appendToVal rest k add

/-- Add `(k, v)` to section `s` of an in-order section list; `none` on a
duplicate option (`DuplicateOptionError`, `configparser` is strict by
default). -/
def addToSection (secs : List (String × List (String × String))) (s k v : String) :
    Option (List (String × List (String × String))) :=
  match secs with
  | [] => none
  | (n, kvs) :: rest =>
      if n = s then
        if (kvs.lookup k).isSome then none
        else some ((n, kvs ++ [(k, v)]) :: rest)
      else
        match addToSection rest s k v with
        | none => none
        | some rest2 => some ((n, kvs) :: rest2)

/-- Append a continuation fragment inside section `s`. -/
def appendInSection (secs : List (String × List (String × String))) (s k add : String) :
    List (String × List (String × String)) :=
  secs.map (fun p => if p.1 = s then (p.1, appendToVal p.2 k add) else p)

/-- Parser state of `RawConfigParser._read`: the `DEFAULT` option
block, the ordered named sections, the current section, the option a
continuation line would extend, and the indentation of the last
non-continuation line. -/
structure IniSt where
  defaults : List (String × String)
  secs : List (String × List (String × String))
  cur : Option String
  curKey : Option String
  indent : Nat
  deriving DecidableEq

/-- One line of `RawConfigParser._read`: blank and full-line comment
lines are skipped, an indented line extends the current option value,
a `[section]` line opens a section (duplicate sections fail), and a
`key = value` / `key : value` line adds an option (keys lower-cased,
values stripped; an option before any section header or a line that is
neither fails).  Simplifications against the library: a blank line
inside a multi-line value is skipped rather than preserved, and parse
errors abort at the offending line (the library collects them but
raises before returning, so the observable result is the same). -/
def iniStep (st : IniSt) (line : String) : Option IniSt :=
  let cs := line.data
  let stripped := trimChars cs
  if stripped.isEmpty then some st
  else if (match stripped with | c :: _ => c == '#' || c == ';' | [] => false) then some st
  else
    let ind := (cs.takeWhile isWs).length
    if st.cur.isSome ∧ st.curKey.isSome ∧ st.indent < ind then
      let k := st.curKey.getD ""
      let add := "\n" ++ String.mk stripped
      if st.cur = some "DEFAULT" then
        some { st with defaults := appendToVal st.defaults k add }
      else
        some { st with secs := appendInSection st.secs (st.cur.getD "") k add }
    else
      match parseSecHeader stripped with
      | some nm =>
          if nm = "DEFAULT" then
            some { st with cur := some "DEFAULT", curKey := none, indent := ind }
          else if (st.secs.lookup nm).isSome then none
          else
            some { st with secs := st.secs ++ [(nm, [])], cur := some nm,
                           curKey := none, indent := ind }
      | none =>
          match splitKVChars stripped with
          | none => none
          | some (kcs, vcs) =>
              let k := lowerStr (String.mk (trimChars kcs))
              let v := String.mk (trimChars vcs)
              match st.cur with
              | none => none
              | some s =>
                  if s = "DEFAULT" then
                    if (st.defaults.lookup k).isSome then none
                    else
                      some { st with defaults := st.defaults ++ [(k, v)],
                                     curKey := some k, indent := ind }
                  else
                    match addToSection st.secs s k v with
                    | none => none
                    | some secs2 =>
                        some { st with secs := secs2, curKey := some k, indent := ind }

/-- Run the `configparser` line reader over all lines. -/
def iniParse (lines : List String) : Option IniSt :=
  lines.foldlM iniStep ⟨[], [], none, none, 0⟩

/-- `BasicInterpolation` applied when a value is read back
(`before_get`): `%%` collapses to `%`, `%(name)s` substitutes the raw
value of `name` from the merged map (recursively when it holds `%`,
with the nesting budget of `MAX_INTERPOLATION_DEPTH`), and any other
`%` is an interpolation error.  The first argument is step fuel (chosen
to dominate any possible expansion), the second the remaining nesting
budget. -/
def interpGo (m : List (String × String)) : Nat → Nat → List Char → Option (List Char)
  | 0, _, _ => none
  | fuel + 1, depth, cs =>
      match cs with
      | [] => some []
      | '%' :: rest =>
          match rest with
          | '%' :: r => (interpGo m fuel depth r).map (fun t => '%' :: t)
          | '(' :: r =>
              let nm := r.takeWhile (fun c => c ≠ ')')
              match r.dropWhile (fun c => c ≠ ')') with
              | ')' :: 's' :: r2 =>
                  if nm.isEmpty then none
                  else
                    match m.lookup (lowerStr (String.mk nm)) with
                    | none => none
                    | some v =>
                        if v.data.contains '%' then
                          match depth with
                          | 0 => none
                          | depth1 + 1 =>
                              match interpGo m fuel depth1 v.data with
                              | none => none
                              | some vi =>
                                  match interpGo m fuel (depth1 + 1) r2 with
                                  | none => none
                                  | some ri => some (vi ++ ri)
                        else
                          (interpGo m fuel depth r2).map (fun t => v.data ++ t)
              | _ => none
          | _ => none
      | c :: rest => (interpGo m fuel depth rest).map (fun t => c :: t)

/-- Step fuel that dominates any interpolation expansion the nesting
budget admits. -/
def interpFuel (m : List (String × String)) (v : String) : Nat :=
  (v.length + 2) * (m.foldl (fun a p => max a p.2.length) 0 + 2) ^ 12

/-- Interpolate one raw value against the merged raw map, with the
depth budget `before_get` starts from. -/
def interpValue (m : List (String × String)) (v : String) : Option String :=
  (interpGo m (interpFuel m v) 9 v.data).map String.mk

/-- One item assignment of the `read_ini` loop body
(`data[key] = value`): fetch the raw value of `k` from the merged map,
interpolate it, and update the flat dict in place when the key exists,
else append it. -/
def iniItemStep (raw : List (String × String)) (d : List (String × String)) (k : String) :
    Option (List (String × String)) := do
  let v0 ← raw.lookup k
  let vi ← interpValue raw v0
  pure (if (d.lookup k).isSome then
      d.map (fun p => if p.1 = k then (k, vi) else p)
    else d ++ [(k, vi)])

/-- One section of the `read_ini` loop: iterate the merged items of the
section (`DEFAULT` option keys first, then the section-only keys,
section values shadowing default ones) into the flat dict. -/
def iniSectionStep (defaults : List (String × String)) (data : List (String × String))
    (sec : String × List (String × String)) : Option (List (String × String)) :=
  let raw := sec.2 ++ defaults
  let keys := defaults.map Prod.fst ++
    (sec.2.filter (fun p => (defaults.lookup p.1).isNone)).map Prod.fst
  keys.foldlM (iniItemStep raw) data

/-- The body of `CompanyDetailsManager.read_ini` (lines 133-137): for
every section in order, iterate its items (`DEFAULT` options first,
then the section options, section values shadowing default ones, each
value passed through interpolation) and assign into one flat dict;
any interpolation error lands in the `except` clause. -/
def iniFlatten (st : IniSt) : Option (List (String × String)) :=
  st.secs.foldlM (iniSectionStep st.defaults) []

/-- All option keys of a section list, in order. -/
def secsKeys : List (String × List (String × String)) → List String
  | [] => []
  | sec :: rest => sec.2.map Prod.fst ++ secsKeys rest

/-- All option keys a parser state holds (`DEFAULT` options and every
section). -/
def stOptionKeys (st : IniSt) : List String :=
  st.defaults.map Prod.fst ++ secsKeys st.secs

/-- The option key a physical line carries when read as an option line:
the lower-cased, trimmed text before its first `=`/`:` delimiter.
Every key the parser ever stores is of this form for some input line. -/
def iniLineKey (line : String) : Option String :=
  match splitKVChars (trimChars line.data) with
  | some kv => some (lowerStr (String.mk (trimChars kv.1)))
  | none => none

/-- `read_ini` on the list of file lines: parse, then flatten; every
failure returns `None` through the `except` clause. -/
def iniDecodeLines (lines : List String) : Option (List (String × String)) :=
  match iniParse lines with
  | none => none
  | some st => iniFlatten st

/-- `read_ini` on whole file text. -/
def iniDecodeText (t : String) : Option (List (String × String)) :=
  iniDecodeLines (splitLines t)

/-- The `--read` dispatch of `main` (lines 420-428): `json` prints the
decoded document when it is truthy, `ini` displays the flat mapping
when it is truthy (a non-empty dict); `csv` and `txt` match no branch,
so nothing at all happens. -/
def jsonTruthy : Json → Bool
  | .null => false
  | .bool b => b
  | .num x => x ≠ PyFloat.finite (mkDec 0 0)
  | .str s => s ≠ ""
  | .arr es => !es.isEmpty
  | .obj fs => !fs.isEmpty

/-- The observable outcome of `--read FORMAT`, given the JSON document
of `company_details.json` (or `none` when absent or invalid) and the
lines of `company_details.ini`. -/
def readDispatch (fmt : ReadFormat) (jsonDoc : Option Json) (iniLines : List String) :
    ReadOutcome :=
  match fmt with
  | .json =>
      match read_json jsonDoc with
      | some j => if jsonTruthy j then .printedJson j else .silent
      | none => .silent
  | .ini =>
      match iniDecodeLines iniLines with
      | some m => if m.isEmpty then .silent else .printedData m
      | none => .silent
  | .csv => .silent
  | .txt => .silent

example : write_text defaultCompanyData ≠ "" := by decide
example : csvHeader.length = 23 := by decide
example : edit_tax_rate defaultCompanyData "abc" = (defaultCompanyData, true) := by decide
example : (edit_tax_rate defaultCompanyData "12.5").1.default_tax_rate
    = PyFloat.finite (mkDec 125 (-1)) := by decide

theorem lookup_isSome_iff (k : String) (d : List (String × String)) :
    (List.lookup k d).isSome ↔ ∃ v, (k, v) ∈ d := by
  induction d with
  | nil => simp [List.lookup]
  | cons p rest ih =>
      obtain ⟨a, b⟩ := p
      by_cases h : k = a
      · subst h
        constructor
        · intro _
          exact ⟨b, List.mem_cons_self _ _⟩
        · intro _
          simp [List.lookup]
      · have hb : (k == a) = false := beq_eq_false_iff_ne.mpr h
        simp [List.lookup, hb, h, ih]

theorem appendToVal_keys (k add : String) (kvs : List (String × String)) :
    (appendToVal kvs k add).map Prod.fst = kvs.map Prod.fst := by
  induction kvs with
  | nil => rfl
  | cons p rest ih =>
      obtain ⟨a, b⟩ := p
      by_cases h : a = k
      · simp [appendToVal, h]
      · simp [appendToVal, h, ih]

theorem appendInSection_keys (s k add : String)
    (secs : List (String × List (String × String))) :
    secsKeys (appendInSection secs s k add) = secsKeys secs := by
  induction secs with
  | nil => rfl
  | cons p rest ih =>
      simp only [appendInSection, List.map_cons, secsKeys] at ih ⊢
      by_cases h : p.1 = s
      · simp [h, appendToVal_keys, ih]
      · simp [h, ih]

theorem secsKeys_append (a b : List (String × List (String × String))) :
    secsKeys (a ++ b) = secsKeys a ++ secsKeys b := by
  induction a with
  | nil => rfl
  | cons p rest ih => simp [secsKeys, ih]

theorem addToSection_keys (s k v : String) :
    ∀ (secs secs2 : List (String × List (String × String))),
      addToSection secs s k v = some secs2 →
      ∀ x ∈ secsKeys secs2, x ∈ secsKeys secs ∨ x = k := by
  intro secs
  induction secs with
  | nil =>
      intro secs2 h
      simp [addToSection] at h
  | cons p rest ih =>
      intro secs2 h x hx
      obtain ⟨n, kvs⟩ := p
      unfold addToSection at h
      split at h
      · split at h
        · simp at h
        · cases h
          simp [secsKeys] at hx ⊢
          tauto
      · split at h
        · simp at h
        next rest2 heq =>
          cases h
          simp [secsKeys] at hx ⊢
          rcases hx with h1 | h1
          · tauto
          · have h2 := ih rest2 heq x h1
            tauto

theorem iniStep_keys (st : IniSt) (line : String) (st2 : IniSt)
    (h : iniStep st line = some st2) :
    ∀ x ∈ stOptionKeys st2, x ∈ stOptionKeys st ∨ iniLineKey line = some x := by
  intro x hx
  simp only [iniStep] at h
  by_cases c1 : (trimChars line.data).isEmpty = true
  · rw [if_pos c1] at h
    cases h
    exact Or.inl hx
  rw [if_neg c1] at h
  rcases hcs : trimChars line.data with _ | ⟨c0, cs0⟩
  · rw [hcs] at c1
    simp at c1
  simp only [hcs] at h
  by_cases c2 : (c0 == '#' || c0 == ';') = true
  · rw [if_pos c2] at h
    cases h
    exact Or.inl hx
  rw [if_neg c2] at h
  by_cases c3 : st.cur.isSome = true ∧ st.curKey.isSome = true
      ∧ st.indent < (List.takeWhile isWs line.data).length
  · rw [if_pos c3] at h
    by_cases c4 : st.cur = some "DEFAULT"
    · rw [if_pos c4] at h
      cases h
      left
      simpa [stOptionKeys, appendToVal_keys] using hx
    · rw [if_neg c4] at h
      cases h
      left
      simpa [stOptionKeys, appendInSection_keys] using hx
  rw [if_neg c3] at h
  rcases hph : parseSecHeader (c0 :: cs0) with _ | nm
  · simp only [hph] at h
    rcases hkv : splitKVChars (c0 :: cs0) with _ | ⟨kcs, vcs⟩
    · simp only [hkv] at h
      simp at h
    simp only [hkv] at h
    rcases hcur : st.cur with _ | s
    · simp only [hcur] at h
      simp at h
    simp only [hcur] at h
    by_cases c7 : s = "DEFAULT"
    · rw [if_pos c7] at h
      by_cases c8 : (List.lookup (lowerStr (String.mk (trimChars kcs))) st.defaults).isSome = true
      · rw [if_pos c8] at h
        simp at h
      · rw [if_neg c8] at h
        cases h
        simp only [stOptionKeys, List.map_append, List.map_cons, List.map_nil,
          List.mem_append, List.mem_singleton] at hx
        rcases hx with (h1 | h1) | h1
        · exact Or.inl (List.mem_append_left _ h1)
        · right
          simp [iniLineKey, hcs, hkv, h1]
        · exact Or.inl (List.mem_append_right _ h1)
    · rw [if_neg c7] at h
      rcases hadd : addToSection st.secs s (lowerStr (String.mk (trimChars kcs)))
          (String.mk (trimChars vcs)) with _ | secs2
      · simp only [hadd] at h
        simp at h
      · simp only [hadd] at h
        cases h
        simp only [stOptionKeys, List.mem_append] at hx
        rcases hx with h1 | h1
        · exact Or.inl (List.mem_append_left _ h1)
        · rcases addToSection_keys _ _ _ _ _ hadd x h1 with h2 | h2
          · exact Or.inl (List.mem_append_right _ h2)
          · right
            simp [iniLineKey, hcs, hkv, h2]
  · simp only [hph] at h
    by_cases c5 : nm = "DEFAULT"
    · rw [if_pos c5] at h
      cases h
      exact Or.inl hx
    · rw [if_neg c5] at h
      by_cases c6 : (List.lookup nm st.secs).isSome = true
      · rw [if_pos c6] at h
        simp at h
      · rw [if_neg c6] at h
        cases h
        left
        simpa [stOptionKeys, secsKeys_append, secsKeys] using hx

theorem iniParse_keys :
    ∀ (lines : List String) (st0 st : IniSt),
      List.foldlM iniStep st0 lines = some st →
      ∀ x ∈ stOptionKeys st,
        x ∈ stOptionKeys st0 ∨ ∃ line ∈ lines, iniLineKey line = some x := by
  intro lines
  induction lines with
  | nil =>
      intro st0 st h x hx
      simp [List.foldlM] at h
      subst h
      exact Or.inl hx
  | cons l ls ih =>
      intro st0 st h x hx
      simp only [List.foldlM, Option.bind_eq_bind, Option.bind_eq_some] at h
      rcases h with ⟨st1, h1, h2⟩
      rcases ih st1 st h2 x hx with h3 | ⟨line, hm, hk⟩
      · rcases iniStep_keys st0 l st1 h1 x h3 with h4 | h4
        · exact Or.inl h4
        · exact Or.inr ⟨l, List.mem_cons_self _ _, h4⟩
      · exact Or.inr ⟨line, List.mem_cons_of_mem _ hm, hk⟩

theorem iniItemStep_spec (raw d : List (String × String)) (k : String)
    (d2 : List (String × String)) (h : iniItemStep raw d k = some d2) :
    (∀ p ∈ d2, p ∈ d ∨ p.1 = k)
    ∧ (∀ x v, (x, v) ∈ d → ∃ w, (x, w) ∈ d2)
    ∧ (∃ w, (k, w) ∈ d2) := by
  unfold iniItemStep at h
  simp only [Option.bind_eq_bind, Option.bind_eq_some, Option.pure_def,
    Option.some.injEq] at h
  rcases h with ⟨v0, hv0, vi, hvi, hd2⟩
  by_cases hk : (List.lookup k d).isSome = true
  · rw [if_pos hk] at hd2
    subst hd2
    refine ⟨?_, ?_, ?_⟩
    · intro p hp
      rcases List.mem_map.mp hp with ⟨q, hq, hfq⟩
      by_cases hq1 : q.1 = k
      · right
        rw [← hfq]
        simp [hq1]
      · left
        rw [← hfq]
        simpa [hq1] using hq
    · intro x v hxv
      by_cases hx : x = k
      · subst hx
        exact ⟨vi, List.mem_map.mpr ⟨(x, v), hxv, by simp⟩⟩
      · exact ⟨v, List.mem_map.mpr ⟨(x, v), hxv, by simp [hx]⟩⟩
    · rcases (lookup_isSome_iff k d).mp hk with ⟨v, hv⟩
      exact ⟨vi, List.mem_map.mpr ⟨(k, v), hv, by simp⟩⟩
  · rw [if_neg hk] at hd2
    subst hd2
    refine ⟨?_, ?_, ?_⟩
    · intro p hp
      rcases List.mem_append.mp hp with h1 | h1
      · exact Or.inl h1
      · right
        rw [List.mem_singleton.mp h1]
    · intro x v hxv
      exact ⟨v, List.mem_append_left _ hxv⟩
    · exact ⟨vi, List.mem_append_right _ (List.mem_singleton.mpr rfl)⟩

theorem iniItemFold_spec (raw : List (String × String)) :
    ∀ (ks : List String) (d m : List (String × String)),
      List.foldlM (iniItemStep raw) d ks = some m →
      (∀ p ∈ m, p ∈ d ∨ p.1 ∈ ks)
      ∧ (∀ x v, (x, v) ∈ d → ∃ w, (x, w) ∈ m)
      ∧ (∀ k ∈ ks, ∃ w, (k, w) ∈ m) := by
  intro ks
  induction ks with
  | nil =>
      intro d m h
      simp [List.foldlM] at h
      subst h
      exact ⟨fun p hp => Or.inl hp, fun x v hxv => ⟨v, hxv⟩, by simp⟩
  | cons k ks ih =>
      intro d m h
      simp only [List.foldlM, Option.bind_eq_bind, Option.bind_eq_some] at h
      rcases h with ⟨d1, h1, h2⟩
      obtain ⟨s1, s2, s3⟩ := iniItemStep_spec raw d k d1 h1
      obtain ⟨i1, i2, i3⟩ := ih d1 m h2
      refine ⟨?_, ?_, ?_⟩
      · intro p hp
        rcases i1 p hp with h3 | h3
        · rcases s1 p h3 with h4 | h4
          · exact Or.inl h4
          · exact Or.inr (by simp [h4])
        · exact Or.inr (List.mem_cons_of_mem _ h3)
      · intro x v hxv
        rcases s2 x v hxv with ⟨w, hw⟩
        exact i2 x w hw
      · intro k2 hk2
        rcases List.mem_cons.mp hk2 with h3 | h3
        · subst h3
          rcases s3 with ⟨w, hw⟩
          exact i2 k2 w hw
        · exact i3 k2 h3

theorem iniSectionFold_spec (defaults : List (String × String)) :
    ∀ (secs : List (String × List (String × String))) (d m : List (String × String)),
      List.foldlM (iniSectionStep defaults) d secs = some m →
      (∀ p ∈ m, p ∈ d ∨ p.1 ∈ defaults.map Prod.fst ∨ p.1 ∈ secsKeys secs)
      ∧ (∀ x v, (x, v) ∈ d → ∃ w, (x, w) ∈ m)
      ∧ (∀ sec ∈ secs, ∀ q ∈ sec.2, ∃ w, (q.1, w) ∈ m)
      ∧ (secs ≠ [] → ∀ q ∈ defaults, ∃ w, (q.1, w) ∈ m) := by
  intro secs
  induction secs with
  | nil =>
      intro d m h
      simp [List.foldlM] at h
      subst h
      exact ⟨fun p hp => Or.inl hp, fun x v hxv => ⟨v, hxv⟩, by simp, by simp⟩
  | cons sec secs ih =>
      intro d m h
      simp only [List.foldlM, Option.bind_eq_bind, Option.bind_eq_some] at h
      rcases h with ⟨d1, h1, h2⟩
      have h1f : List.foldlM (iniItemStep (sec.2 ++ defaults)) d
          (defaults.map Prod.fst ++
            (sec.2.filter (fun p => (defaults.lookup p.1).isNone)).map Prod.fst)
          = some d1 := h1
      obtain ⟨f1, f2, f3⟩ := iniItemFold_spec _ _ _ _ h1f
      obtain ⟨i1, i2, i3, i4⟩ := ih d1 m h2
      have hks : ∀ q ∈ sec.2,
          q.1 ∈ defaults.map Prod.fst ++
            (sec.2.filter (fun p => (defaults.lookup p.1).isNone)).map Prod.fst := by
        intro q hq
        by_cases hd : (List.lookup q.1 defaults).isSome = true
        · rcases (lookup_isSome_iff q.1 defaults).mp hd with ⟨w, hw⟩
          exact List.mem_append_left _ (List.mem_map.mpr ⟨(q.1, w), hw, rfl⟩)
        · refine List.mem_append_right _ (List.mem_map.mpr ⟨q, List.mem_filter.mpr ⟨hq, ?_⟩, rfl⟩)
          cases hcase : List.lookup q.1 defaults with
          | none => simp
          | some w => exact absurd (by simp [hcase]) hd
      refine ⟨?_, ?_, ?_, ?_⟩
      · intro p hp
        rcases i1 p hp with h3 | h3 | h3
        · rcases f1 p h3 with h4 | h4
          · exact Or.inl h4
          · rcases List.mem_append.mp h4 with h5 | h5
            · exact Or.inr (Or.inl h5)
            · refine Or.inr (Or.inr ?_)
              rcases List.mem_map.mp h5 with ⟨q, hq, hq1⟩
              have : p.1 ∈ sec.2.map Prod.fst :=
                hq1 ▸ List.mem_map.mpr ⟨q, (List.mem_filter.mp hq).1, rfl⟩
              simp only [secsKeys, List.mem_append]
              exact Or.inl this
        · exact Or.inr (Or.inl h3)
        · refine Or.inr (Or.inr ?_)
          simp only [secsKeys, List.mem_append]
          exact Or.inr h3
      · intro x v hxv
        rcases f2 x v hxv with ⟨w, hw⟩
        exact i2 x w hw
      · intro sec2 hsec2 q hq
        rcases List.mem_cons.mp hsec2 with h3 | h3
        · subst h3
          rcases f3 q.1 (hks q hq) with ⟨w, hw⟩
          exact i2 q.1 w hw
        · exact i3 sec2 h3 q hq
      · intro _ q hq
        have hq1 : q.1 ∈ defaults.map Prod.fst ++
            (sec.2.filter (fun p => (defaults.lookup p.1).isNone)).map Prod.fst :=
          List.mem_append_left _ (List.mem_map.mpr ⟨q, hq, rfl⟩)
        rcases f3 q.1 hq1 with ⟨w, hw⟩
        exact i2 q.1 w hw

/-- Claim C1, counterexample.  The claim states that decoding the JSON
encoding of a Record yields a Record equal to the original on every
field (`full_address` excluded).  It fails: `read_json` returns
`data["company"]`, the nested object, and never flattens it, so the
decoded value has no field `street` at all while the original record
has `street = "22 Sloane Street"`. -/
theorem C1_counterexample :
    (read_json (some (write_json defaultCompanyData))).bind (fun j => j.getKey "street") = none
    ∧ defaultCompanyData.street = "22 Sloane Street" :=
  ⟨rfl, rfl⟩

/-- Claim C1, amended.  Decoding the JSON encoding of any Record yields
the nested `"company"` object (not a flat Record); every original field
value is recoverable from its nested group, so the round trip loses no
field value, with the derived `full_address` ignored in the
reconstruction. -/
theorem C1_round_trip_nested (r : Record) :
    read_json (some (write_json r)) = some (companyJson r)
    ∧ companyRecover (companyJson r) = some r := by
  refine ⟨rfl, ?_⟩
  cases r
  rfl

/-- Claim C2, counterexample.  The claim states that setting
`default_tax_rate` fails with `ValidationError` exactly when the value
does not parse as a non-negative decimal number.  It fails on `"-5"`:
CPython `float "-5"` succeeds, so `edit_tax` installs the negative rate
and reports no error, while the claim requires a rejection that keeps
the prior value. -/
theorem C2_counterexample :
    edit_tax_rate defaultCompanyData "-5"
      = ({ defaultCompanyData with default_tax_rate := PyFloat.finite (mkDec (-5) 0) }, false)
    ∧ defaultCompanyData.default_tax_rate ≠ PyFloat.finite (mkDec (-5) 0) := by
  decide

/-- Claim C2, amended.  Setting `default_tax_rate` fails (with the
recoverable `Invalid tax rate` report) exactly when the input is
non-empty and does not parse as a CPython float — sign permitted, so
negative values are accepted, and an empty input silently keeps the
prior value; on failure the prior value is retained; `"abc"` fails and
leaves the record unchanged, `"12.5"` updates the rate to 12.5. -/
theorem C2_set_tax_rate (r : Record) (s : String) :
    ((edit_tax_rate r s).2 = true ↔ (s ≠ "" ∧ pyFloat s = none))
    ∧ ((edit_tax_rate r s).2 = true → (edit_tax_rate r s).1 = r)
    ∧ edit_tax_rate r "abc" = (r, true)
    ∧ edit_tax_rate r "12.5"
        = ({ r with default_tax_rate := PyFloat.finite (mkDec 125 (-1)) }, false) := by
  have habc : pyFloat "abc" = none := by decide
  have h125 : pyFloat "12.5" = some (PyFloat.finite (mkDec 125 (-1))) := by decide
  have hne : ("abc" : String) ≠ "" := by decide
  have hne2 : ("12.5" : String) ≠ "" := by decide
  refine ⟨?_, ?_, ?_, ?_⟩
  · by_cases h : s = ""
    · simp [edit_tax_rate, h]
    · cases hp : pyFloat s <;> simp [edit_tax_rate, h, hp]
  · by_cases h : s = ""
    · simp [edit_tax_rate, h]
    · cases hp : pyFloat s <;> simp [edit_tax_rate, h, hp]
  · simp [edit_tax_rate, hne, habc]
  · simp [edit_tax_rate, hne2, h125]

/-- Claim C2, witness for the amended theorem: at the concrete input
`"abc"` the failure flag is set and the record is returned unchanged. -/
theorem C2_set_tax_rate_witness :
    (edit_tax_rate defaultCompanyData "abc").1 = defaultCompanyData :=
  (C2_set_tax_rate defaultCompanyData "abc").2.1 (by decide)

/-- Claim C3, counterexample.  The claim states that a field absent
from the INI text keeps its default value in the decoded result.  It
fails: `read_ini` builds a fresh dict from the file content only, so
decoding a file that holds a single `name` key yields a mapping with no
`street` entry at all, although the record default for `street` is
`"22 Sloane Street"`. -/
theorem C3_counterexample :
    iniDecodeLines ["[company]", "name = X"] = some [("name", "X")]
    ∧ List.lookup "street" [("name", "X")] = none
    ∧ defaultCompanyData.street = "22 Sloane Street" := by
  decide

/-- Claim C3, amended.  INI decode flattens all sections into a single
key-to-value mapping holding only keys present in the text, and fields
absent from the text are absent from the result rather than defaulted:
for every input, every key of a successful decode is the parsed option
key of some input line, and conversely every option of every parsed
section — and every `DEFAULT` option once any section exists — reaches
the flat result (later sections overriding earlier duplicates).  On
malformed INI syntax (an option before any section header, a line that
is neither header nor option) the decode fails, and the single
`Option` result models the Python single return-or-`None`, so no
partial mapping escapes; decoding the INI encoding of the default
record flattens all six sections into the full 25-entry mapping. -/
theorem C3_ini_decode :
    (∀ (lines : List String) (m : List (String × String)),
      iniDecodeLines lines = some m →
      ∀ p ∈ m, ∃ line ∈ lines, iniLineKey line = some p.1)
    ∧ (∀ (st : IniSt) (m : List (String × String)),
      iniFlatten st = some m →
      (∀ sec ∈ st.secs, ∀ q ∈ sec.2, ∃ w, (q.1, w) ∈ m)
      ∧ (st.secs ≠ [] → ∀ q ∈ st.defaults, ∃ w, (q.1, w) ∈ m))
    ∧ iniDecodeLines [] = some []
    ∧ iniDecodeLines ["[a]", "x = 1", "[b]", "x = 2", "y = 3"]
        = some [("x", "2"), ("y", "3")]
    ∧ iniDecodeLines ["x = 1"] = none
    ∧ iniDecodeLines ["[a]", "no delimiter here"] = none
    ∧ iniDecodeText (write_ini_text defaultCompanyData) = some
        [("name", "JK WINNERS INVESTMENT(PTY)Ltd"),
         ("registration_number", "2013/047375/07"),
         ("type", "Private Company"),
         ("street", "22 Sloane Street"),
         ("suburb", "Bryanston"),
         ("province", "GAUTENG"),
         ("postal_code", "1619"),
         ("country", "South Africa"),
         ("full_address", "22 Sloane Street, Bryanston, GAUTENG 1619"),
         ("email", "info@jkwinnersinvestment.co.za"),
         ("phone", "010 085 3553"),
         ("whatsapp", "0839887569"),
         ("website", ""),
         ("account_name", "JK Winners Investment (Pty)Ltd"),
         ("bank", "FNB"),
         ("branch_code", "250655"),
         ("account_number", "63151527133"),
         ("account_type", "Business"),
         ("swift_code", ""),
         ("vat_number", ""),
         ("tax_reference", ""),
         ("default_tax_rate", "15.0"),
         ("industry", "Investment"),
         ("established_year", "2013"),
         ("description", "Investment Company")] := by
  refine ⟨?_, ?_, by decide, by decide, by decide, by decide, by decide⟩
  · intro lines m h p hp
    unfold iniDecodeLines at h
    split at h
    · simp at h
    next st heq =>
      obtain ⟨o1, _, _, _⟩ := iniSectionFold_spec st.defaults st.secs [] m h
      have hkey : p.1 ∈ stOptionKeys st := by
        rcases o1 p hp with h1 | h1 | h1
        · simp at h1
        · exact List.mem_append_left _ h1
        · exact List.mem_append_right _ h1
      rcases iniParse_keys lines ⟨[], [], none, none, 0⟩ st heq p.1 hkey with h2 | h2
      · simp [stOptionKeys, secsKeys] at h2
      · exact h2
  · intro st m h
    obtain ⟨_, _, o3, o4⟩ := iniSectionFold_spec st.defaults st.secs [] m h
    exact ⟨o3, o4⟩

/-- Claim C3, witness for the amended theorem: on the concrete text
`[a]` / `x = 1`, decode succeeds with the single entry `x`, and the
key-origin part locates the option line that carries `x`. -/
theorem C3_ini_decode_witness :
    iniDecodeLines ["[a]", "x = 1"] = some [("x", "1")]
    ∧ ∃ line ∈ ["[a]", "x = 1"], iniLineKey line = some "x" :=
  ⟨by decide,
   C3_ini_decode.1 ["[a]", "x = 1"] [("x", "1")] (by decide) ("x", "1") (by decide)⟩

/-- Claim C4.  JSON decode fails exactly when the document is not valid
JSON (`doc = none`) or the parsed document has no top-level `"company"`
key (including non-object documents, whose subscripting raises and is
caught by the same `except` clause); on success the returned value is
precisely the `"company"` entry, so no partial result exists in the
failure case. -/
theorem C4_json_decode_failure (doc : Option Json) :
    (read_json doc = none ↔ doc = none ∨ ∃ j, doc = some j ∧ j.getKey "company" = none)
    ∧ (∀ j, read_json doc = some j → ∃ d, doc = some d ∧ d.getKey "company" = some j) := by
  cases doc with
  | none => simp [read_json]
  | some j =>
      refine ⟨by simp [read_json], fun v h => ⟨j, rfl, ?_⟩⟩
      simpa [read_json] using h

/-- Claim C4, witness: a document without the `"company"` key lands in
the failure characterization. -/
theorem C4_json_decode_failure_witness :
    (some (Json.obj []) = (none : Option Json))
    ∨ ∃ j, some (Json.obj []) = some j ∧ j.getKey "company" = none :=
  (C4_json_decode_failure (some (Json.obj []))).1.mp rfl

/-- Claim C5.  INI encode is deterministic — in this pure embedding the
encoder is a function, and any produced text equals the unique
`write_ini_text` — and the section order and key order of the output
are exactly the fixed insertion order of `write_ini`. -/
theorem C5_ini_encode_deterministic (r : Record) :
    write_ini r = write_ini r
    ∧ (write_ini_lines r).filterMap iniHeaderName
        = ["company", "address", "contact", "banking", "tax", "business"]
    ∧ (write_ini_lines r).filterMap iniKvKey
        = ["name", "registration_number", "type", "street", "suburb", "province",
           "postal_code", "country", "full_address", "email", "phone", "whatsapp",
           "website", "account_name", "bank", "branch_code", "account_number",
           "account_type", "swift_code", "vat_number", "tax_reference",
           "default_tax_rate", "industry", "established_year", "description"]
    ∧ (∀ t, write_ini r = some t → t = write_ini_text r) := by
  refine ⟨rfl, rfl, rfl, ?_⟩
  intro t h
  unfold write_ini at h
  split at h
  · exact (Option.some.inj h).symm
  · simp at h

set_option maxRecDepth 8192 in
/-- Claim C5, witness: the default record passes the value validation,
and the produced text is the canonical one. -/
theorem C5_ini_encode_deterministic_witness :
    write_ini defaultCompanyData = some (write_ini_text defaultCompanyData)
    ∧ write_ini_text defaultCompanyData = write_ini_text defaultCompanyData :=
  ⟨by decide,
   (C5_ini_encode_deterministic defaultCompanyData).2.2.2
     (write_ini_text defaultCompanyData) (by decide)⟩

/-- Claim C6.  CSV encode produces exactly the header row of the 23
fixed export column names in source order (`company_name`, not the
internal `name`) followed by exactly one data row whose values
correspond positionally to the columns. -/
theorem C6_csv_shape (r : Record) :
    csvRows r = [csvHeader, csvRow r]
    ∧ csvHeader
        = ["company_name", "registration_number", "company_type", "street_address",
           "suburb", "province", "postal_code", "country", "email", "phone",
           "whatsapp", "website", "account_name", "bank", "branch_code",
           "account_number", "account_type", "vat_number", "tax_reference",
           "default_tax_rate", "industry", "established_year", "description"]
    ∧ csvHeader.length = 23
    ∧ csvRow r
        = [r.name, r.registration_number, r.type, r.street,
           r.suburb, r.province, r.postal_code, r.country, r.email, r.phone,
           r.whatsapp, r.website, r.account_name, r.bank, r.branch_code,
           r.account_number, r.account_type, r.vat_number, r.tax_reference,
           pyFloatRepr r.default_tax_rate, r.industry, r.established_year, r.description]
    ∧ (csvRow r).length = 23
    ∧ csvText r = renderCsvRow csvHeader ++ renderCsvRow (csvRow r) :=
  ⟨rfl, rfl, rfl, rfl, rfl, rfl⟩

/-- Claim C7.  Both the JSON and the INI encoder compute `full_address`
fresh at encode time as street, suburb, province and postal code; for
the given concrete address fields it equals
`22 Sloane Street, Bryanston, GAUTENG 1619`. -/
theorem C7_full_address (r : Record) :
    (((write_json r).getKey "company").bind (fun j => j.getKey "address")).bind
        (fun j => j.getKey "full_address") = some (Json.str (fullAddress r))
    ∧ IniLine.kv "full_address" (fullAddress r) ∈ write_ini_lines r
    ∧ (r.street = "22 Sloane Street" → r.suburb = "Bryanston" → r.province = "GAUTENG" →
        r.postal_code = "1619" →
        fullAddress r = "22 Sloane Street, Bryanston, GAUTENG 1619") := by
  refine ⟨rfl, by simp [write_ini_lines], ?_⟩
  intro h1 h2 h3 h4
  unfold fullAddress
  rw [h1, h2, h3, h4]
  rfl

/-- Claim C7, witness: the default record has exactly the address
fields of the claim and yields the claimed full address. -/
theorem C7_full_address_witness :
    defaultCompanyData.street = "22 Sloane Street"
    ∧ fullAddress defaultCompanyData = "22 Sloane Street, Bryanston, GAUTENG 1619" :=
  ⟨rfl, (C7_full_address defaultCompanyData).2.2 rfl rfl rfl rfl⟩

/-- Claim C8.  When `vat_number` (respectively `tax_reference`) is the
empty string, the Text encoding renders the literal placeholder: the
output decomposes around the substring `VAT Number: [To be filled]`
(respectively `Tax Reference: [To be filled]`). -/
theorem C8_text_placeholders (r : Record) :
    (r.vat_number = "" →
      ∃ p q, write_text r = p ++ "VAT Number: [To be filled]" ++ q)
    ∧ (r.tax_reference = "" →
      ∃ p q, write_text r = p ++ "Tax Reference: [To be filled]" ++ q) := by
  constructor
  · intro h
    refine ⟨textBeforeVat r,
      "\n    Tax Reference: " ++ orFilled r.tax_reference ++ textAfterTax r, ?_⟩
    have hv : "VAT Number: " ++ orFilled r.vat_number = "VAT Number: [To be filled]" := by
      rw [h]; rfl
    unfold write_text
    rw [hv]
    simp [String.append_assoc]
  · intro h
    refine ⟨textBeforeVat r ++ ("VAT Number: " ++ orFilled r.vat_number) ++ "\n    ",
      textAfterTax r, ?_⟩
    have ht : "\n    Tax Reference: " ++ orFilled r.tax_reference
        = "\n    " ++ "Tax Reference: [To be filled]" := by
      rw [h]; rfl
    unfold write_text
    rw [ht]
    simp [String.append_assoc]

/-- Claim C8, witness: the default record has an empty `tax_reference`
and its Text encoding contains `Tax Reference: [To be filled]`. -/
theorem C8_text_placeholders_witness :
    defaultCompanyData.tax_reference = ""
    ∧ ∃ p q, write_text defaultCompanyData = p ++ "Tax Reference: [To be filled]" ++ q :=
  ⟨rfl, (C8_text_placeholders defaultCompanyData).2 rfl⟩

/-- Claim C9, counterexample.  The claim states that a decode request
on the CSV or Text format fails with `UnsupportedOperation`.  It fails:
the program has no CSV or Text decode path at all — `--read csv`
matches no branch of the dispatch, so nothing happens and no error of
any kind is reported. -/
theorem C9_counterexample :
    readDispatch ReadFormat.csv none [] = ReadOutcome.silent
    ∧ ReadOutcome.silent ≠ ReadOutcome.unsupportedOp :=
  ⟨rfl, fun h => ReadOutcome.noConfusion h⟩

/-- Claim C9, amended.  A decode request on the CSV or the Text format
never produces a record, partial or whole — but it also raises no
`UnsupportedOperation`: the dispatch silently ignores these formats in
every environment. -/
theorem C9_no_csv_txt_decode (jsonDoc : Option Json) (iniLines : List String) :
    readDispatch ReadFormat.csv jsonDoc iniLines = ReadOutcome.silent
    ∧ readDispatch ReadFormat.txt jsonDoc iniLines = ReadOutcome.silent :=
  ⟨rfl, rfl⟩

/-- Claim C10.  The CSV output carries no `swift_code` column, and the
`swift_code` value does not flow into the CSV text: two records
differing only there encode identically. -/
theorem C10_csv_swift_code_independent (r : Record) (s : String) :
    csvRows { r with swift_code := s } = csvRows r
    ∧ csvText { r with swift_code := s } = csvText r
    ∧ "swift_code" ∉ csvHeader :=
  ⟨rfl, rfl, by decide⟩

end JKWI
